import Mathlib

/-!
Verification development for `DataFrame-postprocess/run_makedataframes.py`.

The script parses whitespace-delimited MET ASCII output files into tables,
merges them per diagnostic key (the token of the file name just before the
extension) with a running `line` index, and writes one pickled dictionary of
tables per (cycle, configuration) task, tasks being dispatched over a
multiprocessing pool.

The embedding below models, faithfully to the Python source:
  * `splitWS`       — Python `str.split()` (split on whitespace, drop empties);
  * `leadToken`     — `x.split('_')[-4]`, the lead-time token of a file name;
  * `sortInPaths`   — `sorted(paths, key=lambda x: (len(x.split('_')[-4]), x))`;
  * `getKey`        — diagnostic-key extraction from a path;
  * `naFilter`, `bindTokens`, `parseRowsAux`, `parseTable`
                    — the per-file parsing loop, including the `NA` filter,
                      the carried `tmp_dict` state, and the `IndexError`
                      raised when a data line has more tokens than the header;
  * `mergeTable`    — the per-key merge with `line` offsetting by
                      `data_dict[postfix].index[-1]`;
  * `procFilesAux`  — the per-task file loop (empty files warn and skip);
  * `proc_gridstat` — the whole task over an explicit file-system state;
  * `mkCNFGS`, `driverSetup`, `n_workers`
                    — the configuration grid, the timestamp-format checks that
                      precede it, and the worker-pool sizing.
Machine-level effects (actual pickling, OS process exit) are modeled as an
explicit result record: written artifact, exit code, logged errors/warnings.
-/

deriving instance DecidableEq for Except

namespace MET

/-- Split a character list at every character satisfying `p`, keeping empty
pieces, accumulating the current (reversed) piece — the semantics of Python
`str.split(sep)` for a one-character separator, and the piece structure of
`str.split()` before empty pieces are dropped. -/
def splitCharsAux (p : Char → Bool) : List Char → List Char → List String
  | [], cur => [String.mk cur.reverse]
  | c :: rest, cur =>
      if p c then String.mk cur.reverse :: splitCharsAux p rest []
      else splitCharsAux p rest (c :: cur)

/-- Split a string at every character satisfying `p`, keeping empty pieces. -/
def splitChars (p : Char → Bool) (s : String) : List String :=
  splitCharsAux p s.data []

/-- Python `str.split()`: split on whitespace and drop empty tokens. -/
def splitWS (s : String) : List String :=
  (splitChars Char.isWhitespace s).filter (fun t => t ≠ "")

/-- `x.split('_')[-4]`: the fourth-from-last underscore-delimited segment of a
path.  (Python raises `IndexError` when fewer than four segments exist; the
claims only concern well-formed names, for which `getD` is never the default.) -/
def leadToken (x : String) : String :=
  let p := splitChars (fun c => c = '_') x
  p.getD (p.length - 4) ""

/-- The sort key `(len(x.split('_')[-4]), x)` used on candidate input paths. -/
def sortKey (x : String) : Nat × String := ((leadToken x).length, x)

/-- Lexicographic `≤` on character lists by code point — Python's string
comparison. -/
def charListLE : List Char → List Char → Bool
  | [], _ => true
  | _ :: _, [] => false
  | a :: as, b :: bs =>
      if a < b then true else if b < a then false else charListLE as bs

/-- Lexicographic `≤` on strings by code point. -/
def strLE (a b : String) : Bool := charListLE a.data b.data

theorem charListLE_total (l₁ l₂ : List Char) :
    charListLE l₁ l₂ = true ∨ charListLE l₂ l₁ = true := by
  induction l₁ generalizing l₂ with
  | nil => exact Or.inl rfl
  | cons a as ih =>
      cases l₂ with
      | nil => exact Or.inr rfl
      | cons b bs =>
          rcases lt_trichotomy a b with h | h | h
          · left; simp [charListLE, h]
          · subst h
            rcases ih bs with h2 | h2
            · left; simp [charListLE, lt_irrefl, h2]
            · right; simp [charListLE, lt_irrefl, h2]
          · right; simp [charListLE, h]

theorem charListLE_trans {l₁ l₂ l₃ : List Char} (h₁ : charListLE l₁ l₂ = true)
    (h₂ : charListLE l₂ l₃ = true) : charListLE l₁ l₃ = true := by
  induction l₁ generalizing l₂ l₃ with
  | nil => rfl
  | cons a as ih =>
      cases l₂ with
      | nil => simp [charListLE] at h₁
      | cons b bs =>
          cases l₃ with
          | nil => simp [charListLE] at h₂
          | cons c cs =>
              simp only [charListLE] at h₁ h₂ ⊢
              rcases lt_trichotomy a b with hab | hab | hab
              · rcases lt_trichotomy b c with hbc | hbc | hbc
                · simp [hab.trans hbc]
                · subst hbc; simp [hab]
                · simp [asymm hbc, hbc] at h₂
              · subst hab
                rcases lt_trichotomy a c with hac | hac | hac
                · simp [hac]
                · subst hac
                  simp only [lt_irrefl, if_false] at h₁ h₂ ⊢
                  exact ih h₁ h₂
                · simp [asymm hac, hac] at h₂
              · simp [asymm hab, hab] at h₁

theorem charListLE_antisymm {l₁ l₂ : List Char} (h₁ : charListLE l₁ l₂ = true)
    (h₂ : charListLE l₂ l₁ = true) : l₁ = l₂ := by
  induction l₁ generalizing l₂ with
  | nil =>
      cases l₂ with
      | nil => rfl
      | cons b bs => simp [charListLE] at h₂
  | cons a as ih =>
      cases l₂ with
      | nil => simp [charListLE] at h₁
      | cons b bs =>
          simp only [charListLE] at h₁ h₂
          rcases lt_trichotomy a b with h | h | h
          · simp [h, asymm h] at h₂
          · subst h
            simp only [lt_irrefl, if_false] at h₁ h₂
            exact congrArg₂ List.cons rfl (ih h₁ h₂)
          · simp [h, asymm h] at h₁

/-- Lexicographic comparison of sort keys: compare the lead-token lengths
first, then the full path string, exactly as Python compares the key tuples. -/
def keyLE (a b : String) : Prop :=
  (sortKey a).1 < (sortKey b).1 ∨
    ((sortKey a).1 = (sortKey b).1 ∧ strLE (sortKey a).2 (sortKey b).2 = true)

instance : DecidableRel keyLE := fun a b => by
  unfold keyLE; infer_instance

instance : IsTotal String keyLE where
  total a b := by
    rcases Nat.lt_trichotomy (sortKey a).1 (sortKey b).1 with h | h | h
    · exact Or.inl (Or.inl h)
    · rcases charListLE_total a.data b.data with h2 | h2
      · exact Or.inl (Or.inr ⟨h, h2⟩)
      · exact Or.inr (Or.inr ⟨h.symm, h2⟩)
    · exact Or.inr (Or.inl h)

instance : IsTrans String keyLE where
  trans a b c hab hbc := by
    rcases hab with h1 | ⟨h1, h1'⟩ <;> rcases hbc with h2 | ⟨h2, h2'⟩
    · exact Or.inl (h1.trans h2)
    · exact Or.inl (h2 ▸ h1)
    · exact Or.inl (h1 ▸ h2)
    · exact Or.inr ⟨h1.trans h2, charListLE_trans h1' h2'⟩

instance : IsAntisymm String keyLE where
  antisymm a b hab hba := by
    rcases hab with h1 | ⟨h1, h1'⟩ <;> rcases hba with h2 | ⟨h2, h2'⟩
    · exact absurd h2 (Nat.lt_asymm h1)
    · exact absurd h1 (by omega)
    · exact absurd h2 (by omega)
    · exact String.ext (charListLE_antisymm h1' h2')

/-- `sorted(in_paths, key=lambda x: (len(x.split('_')[-4]), x))`.
Python's `sorted` is a stable sort; insertion sort is stable as well, and the
key order is total and antisymmetric (it includes the full path), so the
result is the unique `keyLE`-sorted permutation. -/
def sortInPaths (paths : List String) : List String :=
  List.insertionSort keyLE paths

/-- Diagnostic-key extraction:
`fname = in_path.split('/')[-1]`, `split_name = fname.split('_')`,
`postfix = split_name[-1].split('.')[0]`. -/
def getKey (path : String) : String :=
  let fname := (splitChars (fun c => c = '/') path).getLast?.getD ""
  let segs := splitChars (fun c => c = '_') fname
  let lastSeg := segs.getLast?.getD ""
  ((splitChars (fun c => c = '.') lastSeg).head?.getD "")

/-- A record's named fields: an insertion-ordered association list from column
name to value, where `none` is the missing-value sentinel (`np.nan`) and
`some v` an untyped text token — the model of the Python `tmp_dict`. -/
abbrev Fields := List (String × Option String)

/-- One table row: its named fields plus the synthetic `line` counter. -/
structure Row where
  fields : Fields
  line : Nat
deriving DecidableEq

/-- The `NA` filter: `if val == 'NA': val = np.nan`. -/
def naFilter (v : String) : Option String :=
  if v = "NA" then none else some v

/-- Python-dict assignment `d[k] = v`: overwrite in place when the key exists,
append otherwise (insertion order preserved). -/
def setField (fs : Fields) (k : String) (v : Option String) : Fields :=
  match fs with
  | [] => [(k, v)]
  | (k', v') :: rest =>
      if k' = k then (k, v) :: rest else (k', v') :: setField rest k v

/-- The inner token loop
`for i in range(len(split_line)): tmp_dict[cols[i]] = naFilter(split_line[i])`.
When a data line has more tokens than the header has columns, `cols[i]` is out
of range and Python raises an unhandled `IndexError`. -/
def bindTokens (cols tokens : List String) (tmp : Fields) : Except String Fields :=
  match cols, tokens with
  | _, [] => .ok tmp
  | [], _ :: _ => .error "IndexError: list index out of range"
  | c :: cs, v :: vs => bindTokens cs vs (setField tmp c (naFilter v))

/-- The per-line loop of the parser: `tmp_dict` is carried from one line to
the next (it is never cleared in the source), each line's tokens are bound
positionally, and each produced row records the 1-based `df_indx` counter. -/
def parseRowsAux (cols : List String) (lines : List String) (tmp : Fields)
    (idx : Nat) : Except String (List Row) :=
  match lines with
  | [] => .ok []
  | l :: ls =>
      match bindTokens cols (splitWS l) tmp with
      | .error e => .error e
      | .ok tmp' =>
          match parseRowsAux cols ls tmp' (idx + 1) with
          | .error e => .error e
          | .ok rs => .ok ({ fields := tmp', line := idx } :: rs)

/-- Parse one file's contents (its list of raw lines): the first line is the
whitespace-split header; zero header tokens signal an empty file (`.ok none`);
otherwise the remaining lines are parsed into rows with `line = 1, 2, …`. -/
def parseTable (contents : List String) : Except String (Option (List Row)) :=
  if (splitWS (contents.head?.getD "")).isEmpty then .ok none
  else
    match parseRowsAux (splitWS (contents.head?.getD "")) contents.tail [] 1 with
    | .error e => .error e
    | .ok rs => .ok (some rs)

/-- A merged per-diagnostic-key table: its ordered rows. -/
abbrev Table := List Row

/-- `data_dict`: insertion-ordered mapping from diagnostic key to table. -/
abbrev DataDict := List (String × Table)

/-- Python-dict assignment on `data_dict` (overwrite in place). -/
def assocSet (d : DataDict) (k : String) (t : Table) : DataDict :=
  match d with
  | [] => [(k, t)]
  | (k', t') :: rest =>
      if k' = k then (k, t) :: rest else (k', t') :: assocSet rest k t

/-- `fname_df['line'].add(last_indx)`: shift every row's `line` by `n`. -/
def addLines (n : Nat) (t : Table) : Table :=
  t.map fun r => { r with line := r.line + n }

/-- The TypeMerger step: if the key is present, offset the new rows' `line` by
`data_dict[postfix].index[-1]` (an `IndexError` when the stored table is
empty) and append; otherwise insert the new table under the key. -/
def mergeTable (d : DataDict) (key : String) (t : Table) : Except String DataDict :=
  match d.lookup key with
  | some ex =>
      match ex.getLast? with
      | some lastRow => .ok (assocSet d key (ex ++ addLines lastRow.line t))
      | none => .error "IndexError: index -1 is out of bounds for axis 0 with size 0"
  | none => .ok (d ++ [(key, t)])

/-- The warning printed for a file whose header has zero tokens. -/
def warnMsg (p : String) : String :=
  "WARNING: file " ++ p ++ " is empty, skipping this file."

/-- The per-task file loop: parse each file in order; an empty file logs a
warning and is skipped; otherwise its table is merged under its diagnostic
key.  An unhandled exception (`.error`) aborts the whole loop. -/
def procFilesAux (files : List (String × List String)) (d : DataDict)
    (ws : List String) : Except String (DataDict × List String) :=
  match files with
  | [] => .ok (d, ws)
  | (path, contents) :: rest =>
      match parseTable contents with
      | .error e => .error e
      | .ok none => procFilesAux rest d (ws ++ [warnMsg path])
      | .ok (some t) =>
          match mergeTable d (getKey path) t with
          | .error e => .error e
          | .ok d' => procFilesAux rest d' ws

/-- An explicit file-system state: the set of existing directories and the
contents (raw lines) of the regular files, keyed by absolute path. -/
structure FS where
  dirs : List String
  files : List (String × List String)
deriving DecidableEq

/-- `os.path.isdir`. -/
def FS.isdir (fs : FS) (p : String) : Bool := fs.dirs.contains p

/-- The directories created by `mkdir -p p`: every `/`-boundary prefix of `p`,
together with `p` itself. -/
def ancestors (p : String) : List String :=
  let parts := splitChars (fun c => c = '/') p
  ((List.range parts.length).map
    (fun i => String.intercalate "/" (parts.take (i + 1)))) ++ [p]

/-- `os.system('mkdir -p ' + p)`: create `p` and all missing parents; files
are untouched; creation is idempotent. -/
def mkdirp (fs : FS) (p : String) : FS :=
  { fs with dirs := fs.dirs ++ ancestors p }

/-- The module-level settings imported from `DataFrame_config`. -/
structure Settings where
  IN_ROOT : String
  OUT_ROOT : String
  pfx : String
deriving DecidableEq

/-- One `proc_gridstat` argument list
`[anl_strng, ctr_flw, grid, in_cyc_dir, in_dt_subdir, out_cyc_dir]`. -/
structure Config where
  anl_strng : String
  ctr_flw : String
  grid : String
  in_cyc_dir : String
  in_dt_subdir : String
  out_cyc_dir : String
deriving DecidableEq

/-- `grd = '_' + grid if len(grid) > 0 else ''`. -/
def grdOf (c : Config) : String :=
  if c.grid.length > 0 then "_" ++ c.grid else ""

/-- `in_data_root = IN_ROOT + in_cyc_dir`. -/
def inDataRoot (s : Settings) (c : Config) : String := s.IN_ROOT ++ c.in_cyc_dir

/-- `out_data_root = OUT_ROOT + out_cyc_dir`. -/
def outDataRoot (s : Settings) (c : Config) : String := s.OUT_ROOT ++ c.out_cyc_dir

/-- `out_dir = out_data_root + '/' + anl_strng`. -/
def outDir (s : Settings) (c : Config) : String :=
  outDataRoot s c ++ "/" ++ c.anl_strng

/-- `out_path = out_dir + '/grid_stats' + pfx + grd + '_' + anl_strng + '.bin'`. -/
def outPath (s : Settings) (c : Config) : String :=
  outDir s c ++ "/grid_stats" ++ s.pfx ++ grdOf c ++ "_" ++ c.anl_strng ++ ".bin"

/-- `log_dir = OUT_ROOT + '/batch_logs'`. -/
def logDir (s : Settings) : String := s.OUT_ROOT ++ "/batch_logs"

/-- The fatal message for a missing input data root. -/
def inRootErr (s : Settings) (c : Config) : String :=
  "ERROR: input data root directory " ++ inDataRoot s c ++ " does not exist."

/-- The fatal message for a missing output data root. -/
def outRootErr (s : Settings) (c : Config) : String :=
  "ERROR: output data root directory " ++ outDataRoot s c ++ " does not exist."

/-- The observable outcome of one `proc_gridstat` task: the final file-system
state, the artifact written (output path and pickled dictionary), the process
exit code (0 success, 1 `sys.exit(1)`, 2 unhandled exception), and the
ERROR/WARNING lines of the task log. -/
structure ProcResult where
  fsOut : FS
  artifact : Option (String × DataDict)
  exitCode : Nat
  logErrors : List String
  logWarnings : List String
deriving DecidableEq

/-- The sorted per-task work list: the glob matches in sorted order, paired
with their contents read from the file system.  (`glob` only returns existing
paths, so the `getD []` default is never exercised on real states.) -/
def taskFiles (fs : FS) (globMatches : List String) : List (String × List String) :=
  (sortInPaths globMatches).map fun p => (p, (fs.files.lookup p).getD [])

/-- `proc_gridstat(cnfg)` over an explicit file-system state.  `globMatches`
is the (arbitrary-order) result of `glob.glob(in_paths)`; the Python steps are
mirrored in order: create the log dir, create `out_data_root` with `mkdir -p`,
check `isdir(in_data_root)` then `isdir(out_data_root)` (each failure prints a
fatal log line and exits with status 1), create `out_dir`, sort and process
the candidate files, and finally pickle `data_dict` to `out_path`. -/
def proc_gridstat (s : Settings) (c : Config) (fs : FS)
    (globMatches : List String) : ProcResult :=
  let fs1 := mkdirp fs (logDir s)
  let fs2 := mkdirp fs1 (outDataRoot s c)
  if ¬ fs2.isdir (inDataRoot s c) then
    { fsOut := fs2, artifact := none, exitCode := 1,
      logErrors := [inRootErr s c], logWarnings := [] }
  else if ¬ fs2.isdir (outDataRoot s c) then
    { fsOut := fs2, artifact := none, exitCode := 1,
      logErrors := [outRootErr s c], logWarnings := [] }
  else
    let fs3 := mkdirp fs2 (outDir s c)
    match procFilesAux (taskFiles fs globMatches) [] [] with
    | .error e =>
        { fsOut := fs3, artifact := none, exitCode := 2,
          logErrors := [e], logWarnings := [] }
    | .ok (d, ws) =>
        { fsOut := fs3, artifact := some (outPath s c, d), exitCode := 0,
          logErrors := [], logWarnings := ws }

/-- The `CNFGS` grid construction: for each analysis time, control flow,
member id and grid, build the six-element argument list of `proc_gridstat`
(the `analyses` date enumeration itself is an excluded concern and is passed
in as the list of formatted `anl_strng` values). -/
def mkCNFGS (analyses CTR_FLWS MEM_IDS GRDS : List String) : List Config :=
  analyses.flatMap fun anl =>
    CTR_FLWS.flatMap fun ctr =>
      MEM_IDS.flatMap fun mem =>
        GRDS.map fun g =>
          let mem_id := if mem = "" then "" else "/" ++ mem
          let grd := if g = "" then "" else "/" ++ g
          { anl_strng := anl, ctr_flw := ctr, grid := g,
            in_cyc_dir := "/" ++ ctr, in_dt_subdir := mem_id ++ grd,
            out_cyc_dir := "/" ++ ctr }

/-- The driver prologue: the `STRT_DT` / `STOP_DT` / `CYC_INC` format checks,
in source order, each printing an explicit message and terminating the run
(`sys.exit(1)`) on failure; only when all pass is the `CNFGS` grid built. -/
def driverSetup (STRT_DT STOP_DT CYC_INC : String)
    (analyses CTR_FLWS MEM_IDS GRDS : List String) : Except String (List Config) :=
  if STRT_DT.length ≠ 10 then
    .error ("ERROR: STRT_DT, " ++ STRT_DT ++ ", is not in YYYYMMDDHH format.")
  else if STOP_DT.length ≠ 10 then
    .error ("ERROR: STOP_DT, " ++ STOP_DT ++ ", is not in YYYYMMDDHH format.")
  else if CYC_INC.length ≠ 2 then
    .error ("ERROR: CYC_INC, " ++ CYC_INC ++ ", is not in HH format.")
  else .ok (mkCNFGS analyses CTR_FLWS MEM_IDS GRDS)

/-- `n_workers = multiprocessing.cpu_count() - 1`, over the integers. -/
def n_workers (cpu_count : Nat) : Int := (cpu_count : Int) - 1

/-- Fold the TypeMerger over the successive tables of one diagnostic key,
starting from an empty `data_dict` — the merging a cycle task performs for
that key across its files, in merge order. -/
def mergeManyKey (key : String) (tables : List Table) : Except String DataDict :=
  tables.foldlM (fun d t => mergeTable d key t) []

/-- The shape of every table the parser emits: its `line` column is exactly
`1, 2, …, length`. -/
def IsParsedTable (t : Table) : Prop :=
  t.map Row.line = List.range' 1 t.length

/-!  Supporting lemmas for the `line`-continuity invariant. -/

theorem parseRowsAux_lines (cols : List String) (lines : List String) :
    ∀ (tmp : Fields) (idx : Nat) (rs : List Row),
      parseRowsAux cols lines tmp idx = .ok rs →
      rs.map Row.line = List.range' idx rs.length := by
  induction lines with
  | nil =>
      intro tmp idx rs h
      simp only [parseRowsAux] at h
      cases h
      rfl
  | cons l ls ih =>
      intro tmp idx rs h
      simp only [parseRowsAux] at h
      split at h
      · cases h
      · split at h
        · cases h
        · cases h
          rename_i hr
          have htail := ih _ _ _ hr
          simp [List.range'_succ, htail]

theorem parseTable_isParsed {contents : List String} {t : Table}
    (h : parseTable contents = .ok (some t)) : IsParsedTable t := by
  unfold parseTable at h
  split at h
  · cases h
  · split at h
    · cases h
    · cases h
      rename_i hr
      exact parseRowsAux_lines _ _ _ _ _ hr

theorem addLines_lines {t : Table} (n : Nat) (ht : IsParsedTable t) :
    (addLines n t).map Row.line = List.range' (1 + n) t.length := by
  unfold addLines
  rw [List.map_map]
  have hf : (Row.line ∘ fun r => { r with line := r.line + n }) =
      (fun m => n + m) ∘ Row.line := by
    funext r; simp [Nat.add_comm]
  rw [hf, ← List.map_map, ht, List.map_add_range', Nat.add_comm n 1]

theorem addLines_length (n : Nat) (t : Table) :
    (addLines n t).length = t.length := by
  unfold addLines
  exact List.length_map t _

theorem addLines_fields (n : Nat) (t : Table) :
    (addLines n t).map Row.fields = t.map Row.fields := by
  unfold addLines
  rw [List.map_map]
  rfl

theorem isParsed_getLast {t : Table} (ht : IsParsedTable t) (hne : t ≠ []) :
    ∃ r, t.getLast? = some r ∧ r.line = t.length := by
  have h0 : t.length ≠ 0 := fun h => hne (List.eq_nil_of_length_eq_zero h)
  have hm : (t.map Row.line).getLast? = some t.length := by
    rw [ht, List.getLast?_range', if_neg h0]
    congr 1
    omega
  rw [List.getLast?_map] at hm
  cases hl : t.getLast? with
  | none => rw [hl] at hm; cases hm
  | some r =>
      rw [hl] at hm
      exact ⟨r, rfl, by simpa using hm⟩

theorem mergeFold_loop (key : String) (tables : List Table) :
    ∀ (m : Table),
      (∀ t ∈ tables, IsParsedTable t ∧ t ≠ []) →
      IsParsedTable m → m ≠ [] →
      ∃ m', tables.foldlM (fun d t => mergeTable d key t) [(key, m)] = .ok [(key, m')] ∧
        IsParsedTable m' ∧
        m'.map Row.fields = m.map Row.fields ++ (tables.map (List.map Row.fields)).flatten ∧
        m' ≠ [] := by
  induction tables with
  | nil =>
      intro m _ hm hne
      exact ⟨m, rfl, hm, by simp, hne⟩
  | cons t ts ih =>
      intro m hall hm hne
      have hpt : IsParsedTable t := (hall t (by simp)).1
      have htne : t ≠ [] := (hall t (by simp)).2
      have hrest : ∀ u ∈ ts, IsParsedTable u ∧ u ≠ [] :=
        fun u hu => hall u (by simp [hu])
      obtain ⟨r, hlast, hline⟩ := isParsed_getLast hm hne
      have hmerge : mergeTable [(key, m)] key t =
          .ok [(key, m ++ addLines m.length t)] := by
        unfold mergeTable
        simp [List.lookup, hlast, hline, assocSet]
      have hm2 : IsParsedTable (m ++ addLines m.length t) := by
        unfold IsParsedTable
        rw [List.map_append, hm, addLines_lines m.length hpt,
          List.length_append, addLines_length,
          Nat.add_comm (List.length m) (List.length t)]
        exact List.range'_append_1 1 m.length t.length
      have hne2 : m ++ addLines m.length t ≠ [] := by
        simp [hne]
      obtain ⟨m', hfold, hp', hf', hne'⟩ := ih (m ++ addLines m.length t) hrest hm2 hne2
      refine ⟨m', ?_, hp', ?_, hne'⟩
      · simp only [List.foldlM_cons, hmerge]
        simpa using hfold
      · rw [hf', List.map_append, addLines_fields]
        simp

/-- Claim C1: merging the non-empty parsed tables of one diagnostic key, in
file-merge order, yields a merged table whose rows are exactly the
concatenation of the files' rows in their original per-file order, and whose
`line` index is exactly `1..N` where `N` is the total number of rows merged —
so every row of an earlier file has a smaller `line` than every row of a later
file, and each file continues immediately after the last `line` present. -/
theorem claim_C1_line_index_continuity (key : String) (tables : List Table)
    (hne : tables ≠ [])
    (hp : ∀ t ∈ tables, (∃ contents, parseTable contents = .ok (some t)) ∧ t ≠ []) :
    ∃ m, mergeManyKey key tables = .ok [(key, m)] ∧
      m.map Row.fields = (tables.map (List.map Row.fields)).flatten ∧
      m.map Row.line = List.range' 1 ((tables.map List.length).sum) := by
  have hp' : ∀ t ∈ tables, IsParsedTable t ∧ t ≠ [] := fun t ht =>
    ⟨(hp t ht).1.elim (fun _ hc => parseTable_isParsed hc), (hp t ht).2⟩
  cases tables with
  | nil => exact absurd rfl hne
  | cons t0 ts =>
      have h0 : IsParsedTable t0 := (hp' t0 (by simp)).1
      have h0ne : t0 ≠ [] := (hp' t0 (by simp)).2
      have hrest : ∀ u ∈ ts, IsParsedTable u ∧ u ≠ [] := fun u hu => hp' u (by simp [hu])
      obtain ⟨m, hfold, hpm, hfm, _⟩ := mergeFold_loop key ts t0 hrest h0 h0ne
      have hfirst : mergeTable [] key t0 = .ok [(key, t0)] := by
        unfold mergeTable
        simp [List.lookup]
      refine ⟨m, ?_, ?_, ?_⟩
      · unfold mergeManyKey
        simp only [List.foldlM_cons, hfirst]
        simpa using hfold
      · rw [hfm]
        simp
      · have hlen : m.length = t0.length + (ts.map List.length).sum := by
          have hc := congrArg List.length hfm
          simpa [List.length_flatten, List.map_map, Function.comp_def] using hc
        rw [hpm, hlen]
        simp

/-- A five-row parsed table, as produced by parsing a one-column file. -/
def tblA : Table :=
  [{ fields := [("stat", some "1")], line := 1 },
   { fields := [("stat", some "2")], line := 2 },
   { fields := [("stat", some "3")], line := 3 },
   { fields := [("stat", some "4")], line := 4 },
   { fields := [("stat", some "5")], line := 5 }]

/-- A three-row parsed table, as produced by parsing a one-column file. -/
def tblB : Table :=
  [{ fields := [("stat", some "6")], line := 1 },
   { fields := [("stat", some "7")], line := 2 },
   { fields := [("stat", some "8")], line := 3 }]

/-- Witness for C1: a 5-row file then a 3-row file of the same key merge to
8 rows with `line = 1..8`. -/
theorem claim_C1_witness :
    ∃ m, mergeManyKey "cnt" [tblA, tblB] = .ok [("cnt", m)] ∧
      m.map Row.fields = ([tblA, tblB].map (List.map Row.fields)).flatten ∧
      m.map Row.line = List.range' 1 (([tblA, tblB].map List.length).sum) :=
  claim_C1_line_index_continuity "cnt" [tblA, tblB] (by decide)
    (by
      intro t ht
      rcases List.mem_cons.mp ht with h | h
      · subst h
        exact ⟨⟨["stat", "1", "2", "3", "4", "5"], by decide⟩, by decide⟩
      · rcases List.mem_cons.mp h with h2 | h2
        · subst h2
          exact ⟨⟨["stat", "6", "7", "8"], by decide⟩, by decide⟩
        · cases h2)

/-- A candidate input path whose lead-time token (fourth-from-last
underscore-delimited segment) is `3`. -/
def pathLead3 : String := "/data/flow/grid_stat_GFS_3_20210101_120000V_cnt.txt"

/-- A candidate input path whose lead-time token is `10`. -/
def pathLead10 : String := "/data/flow/grid_stat_GFS_10_20210101_120000V_cnt.txt"

/-- A candidate input path whose lead-time token is `21`. -/
def pathLead21 : String := "/data/flow/grid_stat_GFS_21_20210101_120000V_cnt.txt"

/-- Claim C2: the cycle processor sorts candidate files by the composite key
(length of the lead-time token — the fourth-from-last underscore-delimited
segment — then the full filename); in particular, files whose lead-time
tokens are `3`, `10`, `21`, presented in any filesystem order, are put in
numeric lead-time order 3, 10, 21, not lexicographic order. -/
theorem claim_C2_lead_time_ordering :
    leadToken pathLead3 = "3" ∧ leadToken pathLead10 = "10" ∧
    leadToken pathLead21 = "21" ∧
    ∀ l : List String, l.Perm [pathLead3, pathLead10, pathLead21] →
      sortInPaths l = [pathLead3, pathLead10, pathLead21] := by
  refine ⟨by decide, by decide, by decide, ?_⟩
  intro l hperm
  have hs : List.Sorted keyLE (sortInPaths l) := List.sorted_insertionSort keyLE l
  have hp : (sortInPaths l).Perm [pathLead3, pathLead10, pathLead21] :=
    (List.perm_insertionSort keyLE l).trans hperm
  have ht : List.Sorted keyLE [pathLead3, pathLead10, pathLead21] := by decide
  exact List.eq_of_perm_of_sorted hp hs ht

/-- Witness for C2: one concrete filesystem order (10, 21, 3) sorts to
(3, 10, 21). -/
theorem claim_C2_witness :
    sortInPaths [pathLead10, pathLead21, pathLead3] =
      [pathLead3, pathLead10, pathLead21] :=
  claim_C2_lead_time_ordering.2.2.2 [pathLead10, pathLead21, pathLead3] (by decide)

theorem isdir_mkdirp (fs : FS) (p q : String) :
    (mkdirp fs p).isdir q = true ↔ fs.isdir q = true ∨ q ∈ ancestors p := by
  simp [FS.isdir, mkdirp, List.mem_append]

theorem isdir_mkdirp_self (fs : FS) (p : String) : (mkdirp fs p).isdir p = true := by
  rw [isdir_mkdirp]
  right
  unfold ancestors
  simp

/-- Example settings: input root `/in`, output root `/out`. -/
def stgDemo : Settings := { IN_ROOT := "/in", OUT_ROOT := "/out", pfx := "_grid_stat" }

/-- Example task configuration for control flow `flow`, cycle `2021010100`. -/
def cfgFlow : Config :=
  { anl_strng := "2021010100", ctr_flw := "flow", grid := "",
    in_cyc_dir := "/flow", in_dt_subdir := "", out_cyc_dir := "/flow" }

/-- A file system on which `cfgFlow`'s input root exists but the output root
`/out/flow` does not yet exist. -/
def fsNoOut : FS := { dirs := ["/in", "/in/flow"], files := [] }

/-- An empty file system: `cfgFlow`'s input root does not exist. -/
def fsNoIn : FS := { dirs := [], files := [] }

/-- Counterexample for C3: with the input directory present but the
pre-existing output root absent, the task does NOT fail — `mkdir -p` creates
the output root before the `isdir` check, so the task runs to completion,
writes its artifact, and logs no error.  The two missing-directory cases are
therefore not identical. -/
theorem claim_C3_counterexample :
    fsNoOut.isdir (inDataRoot stgDemo cfgFlow) = true ∧
    fsNoOut.isdir (outDataRoot stgDemo cfgFlow) = false ∧
    (proc_gridstat stgDemo cfgFlow fsNoOut []).exitCode = 0 ∧
    (proc_gridstat stgDemo cfgFlow fsNoOut []).artifact =
      some (outPath stgDemo cfgFlow, []) ∧
    (proc_gridstat stgDemo cfgFlow fsNoOut []).logErrors = [] := by decide

/-- Claim C3 (amended): a missing input data root makes the task log the
fatal input-root message, exit with status 1, and write no artifact; and this
is the only fatal-exit path — in particular the output-root check can never
fire, because the task creates the output root with `mkdir -p` immediately
before checking it, so a merely pre-existing-missing output root does not
abort the task. -/
theorem claim_C3_missing_input_root_fatal :
    (∀ (s : Settings) (c : Config) (fs : FS) (glob : List String),
      fs.isdir (inDataRoot s c) = false →
      inDataRoot s c ∉ ancestors (logDir s) →
      inDataRoot s c ∉ ancestors (outDataRoot s c) →
      (proc_gridstat s c fs glob).artifact = none ∧
      (proc_gridstat s c fs glob).exitCode = 1 ∧
      (proc_gridstat s c fs glob).logErrors = [inRootErr s c]) ∧
    (∀ (s : Settings) (c : Config) (fs : FS) (glob : List String),
      (proc_gridstat s c fs glob).exitCode = 1 →
      (proc_gridstat s c fs glob).logErrors = [inRootErr s c]) := by
  constructor
  · intro s c fs glob h h1 h2
    have hin : (mkdirp (mkdirp fs (logDir s)) (outDataRoot s c)).isdir
        (inDataRoot s c) = false := by
      rw [Bool.eq_false_iff]
      intro hc
      rcases (isdir_mkdirp _ _ _).mp hc with hc' | hc'
      · rcases (isdir_mkdirp _ _ _).mp hc' with hc'' | hc''
        · rw [h] at hc''; cases hc''
        · exact h1 hc''
      · exact h2 hc'
    unfold proc_gridstat
    rw [if_pos (by simp [hin])]
    exact ⟨rfl, rfl, rfl⟩
  · intro s c fs glob h
    unfold proc_gridstat at h ⊢
    by_cases hin : (mkdirp (mkdirp fs (logDir s)) (outDataRoot s c)).isdir
        (inDataRoot s c) = true
    · rw [if_neg (by simp [hin])] at h ⊢
      rw [if_neg (by simp [isdir_mkdirp_self])] at h ⊢
      exfalso
      rcases hp : procFilesAux
          (taskFiles fs glob) [] [] with e | pr
      · rw [hp] at h; cases h
      · rw [hp] at h; cases h
    · rw [if_pos (by simp [Bool.eq_false_iff.mpr hin])] at h ⊢

/-- Witness for the amended C3: on an empty file system the example task
exits 1 with the input-root error and no artifact. -/
theorem claim_C3_witness :
    (proc_gridstat stgDemo cfgFlow fsNoIn []).artifact = none ∧
    (proc_gridstat stgDemo cfgFlow fsNoIn []).exitCode = 1 ∧
    (proc_gridstat stgDemo cfgFlow fsNoIn []).logErrors =
      [inRootErr stgDemo cfgFlow] :=
  claim_C3_missing_input_root_fatal.1 stgDemo cfgFlow fsNoIn []
    (by decide) (by decide) (by decide)

/-- Claim C9: when the checked input root exists but the glob pattern matches
no file (including a missing per-cycle subdirectory, in which case `glob`
returns the empty list), the task completes with exit status 0 and writes an
artifact holding the empty diagnostic-key mapping, with no warning and no
error logged. -/
theorem claim_C9_no_matches_empty_artifact (s : Settings) (c : Config) (fs : FS)
    (h : fs.isdir (inDataRoot s c) = true) :
    (proc_gridstat s c fs []).artifact = some (outPath s c, []) ∧
    (proc_gridstat s c fs []).exitCode = 0 ∧
    (proc_gridstat s c fs []).logErrors = [] ∧
    (proc_gridstat s c fs []).logWarnings = [] := by
  have hin : (mkdirp (mkdirp fs (logDir s)) (outDataRoot s c)).isdir
      (inDataRoot s c) = true :=
    (isdir_mkdirp _ _ _).mpr (Or.inl ((isdir_mkdirp _ _ _).mpr (Or.inl h)))
  unfold proc_gridstat
  rw [if_neg (by simp [hin]), if_neg (by simp [isdir_mkdirp_self])]
  exact ⟨rfl, rfl, rfl, rfl⟩

/-- Witness for C9: a concrete task with an existing input root and an empty
glob result writes the empty-dictionary artifact. -/
theorem claim_C9_witness :
    (proc_gridstat stgDemo cfgFlow fsNoOut []).artifact =
      some (outPath stgDemo cfgFlow, []) ∧
    (proc_gridstat stgDemo cfgFlow fsNoOut []).exitCode = 0 ∧
    (proc_gridstat stgDemo cfgFlow fsNoOut []).logErrors = [] ∧
    (proc_gridstat stgDemo cfgFlow fsNoOut []).logWarnings = [] :=
  claim_C9_no_matches_empty_artifact stgDemo cfgFlow fsNoOut (by decide)

/-- The first of two grid configurations differing only in member id. -/
def cfgM1 : Config :=
  { anl_strng := "2021010100", ctr_flw := "flow", grid := "d01",
    in_cyc_dir := "/flow", in_dt_subdir := "/mem01/d01", out_cyc_dir := "/flow" }

/-- The second of two grid configurations differing only in member id. -/
def cfgM2 : Config :=
  { anl_strng := "2021010100", ctr_flw := "flow", grid := "d01",
    in_cyc_dir := "/flow", in_dt_subdir := "/mem02/d01", out_cyc_dir := "/flow" }

/-- Counterexample for C4: a constructed configuration grid with two member
identifiers produces two distinct configurations whose serialized-artifact
output paths are identical — the output path does not contain the member
identifier, so the mapping is not injective over the grid. -/
theorem claim_C4_counterexample :
    mkCNFGS ["2021010100"] ["flow"] ["mem01", "mem02"] ["d01"] = [cfgM1, cfgM2] ∧
    cfgM1 ≠ cfgM2 ∧
    outPath stgDemo cfgM1 = outPath stgDemo cfgM2 := by decide

theorem mkCNFGS_out_cyc {A C M G : List String} {c : Config}
    (h : c ∈ mkCNFGS A C M G) : c.out_cyc_dir = "/" ++ c.ctr_flw := by
  simp only [mkCNFGS, List.mem_flatMap, List.mem_map] at h
  obtain ⟨anl, -, ctr, -, mem, -, g, -, hc⟩ := h
  rw [← hc]

/-- Claim C4 (amended): over the constructed configuration grid the output
path is determined by analysis time, control-flow label and grid label alone —
any two grid configurations agreeing on those three fields (in particular,
two configurations differing only in member identifier) are mapped to the
same output path, so the mapping is not injective in the member identifier. -/
theorem claim_C4_outpath_ignores_member (s : Settings) (A C M G : List String)
    (c1 c2 : Config) (h1 : c1 ∈ mkCNFGS A C M G) (h2 : c2 ∈ mkCNFGS A C M G)
    (ha : c1.anl_strng = c2.anl_strng) (hc : c1.ctr_flw = c2.ctr_flw)
    (hg : c1.grid = c2.grid) :
    outPath s c1 = outPath s c2 := by
  have e1 := mkCNFGS_out_cyc h1
  have e2 := mkCNFGS_out_cyc h2
  unfold outPath outDir outDataRoot grdOf
  rw [e1, e2, ha, hc, hg]

/-- Witness for the amended C4: the two concrete member-only-differing grid
configurations share one output path. -/
theorem claim_C4_witness : outPath stgDemo cfgM1 = outPath stgDemo cfgM2 :=
  claim_C4_outpath_ignores_member stgDemo ["2021010100"] ["flow"]
    ["mem01", "mem02"] ["d01"] cfgM1 cfgM2 (by decide) (by decide) rfl rfl rfl

/-- No stored field of a record holds the literal text `NA`. -/
def NoNAFields (fs : Fields) : Prop :=
  ∀ k v, (k, some v) ∈ fs → v ≠ "NA"

theorem naFilter_ne_NA (v : String) : naFilter v ≠ some "NA" := by
  unfold naFilter
  split
  · simp
  · rename_i h
    simp [h]

theorem setField_noNA {fs : Fields} (h : NoNAFields fs) {k : String}
    {v : Option String} (hv : v ≠ some "NA") : NoNAFields (setField fs k v) := by
  induction fs with
  | nil =>
      intro k' v' hm he
      simp only [setField, List.mem_singleton] at hm
      cases hm
      exact hv (by rw [he])
  | cons p rest ih =>
      obtain ⟨k0, v0⟩ := p
      intro k' v' hm he
      simp only [setField] at hm
      split at hm
      · rcases List.mem_cons.mp hm with hh | ht
        · cases hh
          exact hv (by rw [he])
        · exact h k' v' (List.mem_cons_of_mem _ ht) he
      · rcases List.mem_cons.mp hm with hh | ht
        · exact h k' v' (by rw [hh]; exact List.mem_cons_self _ _) he
        · exact ih (fun a b hb => h a b (List.mem_cons_of_mem _ hb)) k' v' ht he

theorem bindTokens_noNA (tokens : List String) :
    ∀ (cols : List String) (tmp tmp' : Fields), NoNAFields tmp →
      bindTokens cols tokens tmp = .ok tmp' → NoNAFields tmp' := by
  induction tokens with
  | nil =>
      intro cols tmp tmp' h hb
      cases cols <;> (cases hb; exact h)
  | cons v vs ih =>
      intro cols tmp tmp' h hb
      cases cols with
      | nil => cases hb
      | cons c cs =>
          exact ih cs _ tmp' (setField_noNA h (naFilter_ne_NA v)) hb

theorem parseRowsAux_noNA (cols : List String) (lines : List String) :
    ∀ (tmp : Fields) (idx : Nat) (rs : List Row), NoNAFields tmp →
      parseRowsAux cols lines tmp idx = .ok rs →
      ∀ r ∈ rs, NoNAFields r.fields := by
  induction lines with
  | nil =>
      intro tmp idx rs _ h
      cases h
      intro r hr
      cases hr
  | cons l ls ih =>
      intro tmp idx rs htmp h
      simp only [parseRowsAux] at h
      split at h
      · cases h
      · rename_i tmp' hb
        split at h
        · cases h
        · rename_i rs' hr
          cases h
          have htmp' : NoNAFields tmp' := bindTokens_noNA _ _ _ _ htmp hb
          intro r hrm
          rcases List.mem_cons.mp hrm with hh | ht
          · rw [hh]
            exact htmp'
          · exact ih tmp' (idx + 1) rs' htmp' hr r ht

/-- Claim C5: a token parses to the missing-value sentinel exactly when it is
the literal `NA`; any other token is stored unchanged; consequently no field
of any record of a parsed table ever holds the literal string `"NA"`. -/
theorem claim_C5_na_translation :
    (∀ v, naFilter v = none ↔ v = "NA") ∧
    (∀ v, v ≠ "NA" → naFilter v = some v) ∧
    (∀ (contents : List String) (t : Table),
      parseTable contents = .ok (some t) →
      ∀ r ∈ t, ∀ k v, (k, some v) ∈ r.fields → v ≠ "NA") := by
  refine ⟨?_, ?_, ?_⟩
  · intro v
    unfold naFilter
    split <;> simp_all
  · intro v h
    unfold naFilter
    rw [if_neg h]
  · intro contents t h r hr k v hm
    unfold parseTable at h
    split at h
    · cases h
    · split at h
      · cases h
      · cases h
        rename_i hrows
        exact parseRowsAux_noNA _ _ [] 1 _ (fun _ _ hx => absurd hx (by simp))
          hrows r hr k v hm

/-- Witness for C5: parsing a file whose data line holds `1 NA` yields the
sentinel in the second field, and no field holds the text `NA`. -/
theorem claim_C5_witness :
    ∀ r ∈ [({ fields := [("a", some "1"), ("b", none)], line := 1 } : Row)],
      ∀ k v, (k, some v) ∈ r.fields → v ≠ "NA" :=
  claim_C5_na_translation.2.2 ["a b", "1 NA"]
    [{ fields := [("a", some "1"), ("b", none)], line := 1 }] (by decide)

theorem procFilesAux_ws_shift (files : List (String × List String)) :
    ∀ (d : DataDict) (ws : List String),
      procFilesAux files d ws =
        (procFilesAux files d []).map (fun r => (r.1, ws ++ r.2)) := by
  induction files with
  | nil =>
      intro d ws
      simp [procFilesAux, Except.map]
  | cons f rest ih =>
      obtain ⟨path, contents⟩ := f
      intro d ws
      simp only [procFilesAux]
      cases hp : parseTable contents with
      | error e => rfl
      | ok o =>
          cases o with
          | none =>
              dsimp only
              rw [ih d (ws ++ [warnMsg path]), ih d ([] ++ [warnMsg path])]
              cases procFilesAux rest d [] with
              | error e => rfl
              | ok pr => simp [Except.map]
          | some t =>
              dsimp only
              cases hm : mergeTable d (getKey path) t with
              | error e => rfl
              | ok d2 => exact ih d2 ws

/-- Claim C6: a file whose first line yields zero whitespace tokens is
skipped with a warning: the task does not fail on it, it contributes zero
rows to every merged table, and the remaining files merge exactly as if the
empty file were absent (the dictionary outcome — and any error — of the file
loop is unchanged) while the warning for that file is logged. -/
theorem claim_C6_empty_file_skip (pre post : List (String × List String))
    (path : String) (contents : List String)
    (hempty : splitWS (contents.head?.getD "") = []) :
    ∀ (d : DataDict) (ws : List String),
      (procFilesAux (pre ++ (path, contents) :: post) d ws).map Prod.fst =
        (procFilesAux (pre ++ post) d ws).map Prod.fst ∧
      ∀ d' ws', procFilesAux (pre ++ (path, contents) :: post) d ws = .ok (d', ws') →
        warnMsg path ∈ ws' := by
  have hpt : parseTable contents = .ok none := by
    unfold parseTable
    rw [if_pos (by simp [hempty])]
  induction pre with
  | nil =>
      intro d ws
      constructor
      · simp only [List.nil_append, procFilesAux, hpt]
        rw [procFilesAux_ws_shift post d (ws ++ [warnMsg path]),
          procFilesAux_ws_shift post d ws]
        cases procFilesAux post d [] with
        | error e => rfl
        | ok pr => rfl
      · intro d' ws' h
        simp only [List.nil_append, procFilesAux, hpt] at h
        rw [procFilesAux_ws_shift post d (ws ++ [warnMsg path])] at h
        cases hh : procFilesAux post d [] with
        | error e => rw [hh] at h; cases h
        | ok pr =>
            rw [hh] at h
            cases h
            simp
  | cons f pre' ih =>
      obtain ⟨p0, c0⟩ := f
      intro d ws
      simp only [List.cons_append, procFilesAux]
      cases hp : parseTable c0 with
      | error e => exact ⟨rfl, fun d' ws' h => by cases h⟩
      | ok o =>
          cases o with
          | none =>
              dsimp only
              exact ih d (ws ++ [warnMsg p0])
          | some t =>
              dsimp only
              cases hm : mergeTable d (getKey p0) t with
              | error e => exact ⟨rfl, fun d' ws' h => by cases h⟩
              | ok d2 => exact ih d2 ws

/-- Witness for C6: a header-only file between two one-column files leaves
the merged dictionary as if absent, and its warning is logged. -/
theorem claim_C6_witness :
    (procFilesAux [("/d/a_cnt.txt", ["stat", "1"]), ("/d/b_cnt.txt", [""]),
        ("/d/c_cnt.txt", ["stat", "2"])] [] []).map Prod.fst =
      (procFilesAux [("/d/a_cnt.txt", ["stat", "1"]),
        ("/d/c_cnt.txt", ["stat", "2"])] [] []).map Prod.fst ∧
    ∀ d' ws', procFilesAux [("/d/a_cnt.txt", ["stat", "1"]), ("/d/b_cnt.txt", [""]),
        ("/d/c_cnt.txt", ["stat", "2"])] [] [] = .ok (d', ws') →
      warnMsg "/d/b_cnt.txt" ∈ ws' :=
  claim_C6_empty_file_skip [("/d/a_cnt.txt", ["stat", "1"])]
    [("/d/c_cnt.txt", ["stat", "2"])] "/d/b_cnt.txt" [""] (by decide) [] []

/-- A file whose header is non-empty but which has a data line with more
whitespace tokens than the header has columns. -/
def HasOverfullLine (contents : List String) : Prop :=
  splitWS (contents.head?.getD "") ≠ [] ∧
  ∃ l ∈ contents.tail,
    (splitWS (contents.head?.getD "")).length < (splitWS l).length

instance (contents : List String) : Decidable (HasOverfullLine contents) := by
  unfold HasOverfullLine
  infer_instance

theorem bindTokens_error (tokens : List String) :
    ∀ (cols : List String) (tmp : Fields), cols.length < tokens.length →
      bindTokens cols tokens tmp = .error "IndexError: list index out of range" := by
  induction tokens with
  | nil =>
      intro cols tmp h
      cases h
  | cons v vs ih =>
      intro cols tmp h
      cases cols with
      | nil => rfl
      | cons c cs =>
          exact ih cs _ (by simpa using h)

theorem bindTokens_ok (tokens : List String) :
    ∀ (cols : List String) (tmp : Fields), tokens.length ≤ cols.length →
      ∃ tmp', bindTokens cols tokens tmp = .ok tmp' := by
  induction tokens with
  | nil =>
      intro cols tmp _
      cases cols <;> exact ⟨tmp, rfl⟩
  | cons v vs ih =>
      intro cols tmp h
      cases cols with
      | nil => cases h
      | cons c cs =>
          exact ih cs _ (by simpa using h)

theorem parseRowsAux_error_of_overfull (cols : List String) (lines : List String) :
    ∀ (tmp : Fields) (idx : Nat),
      (∃ l ∈ lines, cols.length < (splitWS l).length) →
      ∃ e, parseRowsAux cols lines tmp idx = .error e := by
  induction lines with
  | nil =>
      intro tmp idx h
      simp at h
  | cons l ls ih =>
      intro tmp idx h
      by_cases hl : cols.length < (splitWS l).length
      · refine ⟨"IndexError: list index out of range", ?_⟩
        simp only [parseRowsAux]
        rw [bindTokens_error (splitWS l) cols tmp hl]
      · obtain ⟨tmp', hb⟩ := bindTokens_ok (splitWS l) cols tmp (le_of_not_lt hl)
        have h' : ∃ l' ∈ ls, cols.length < (splitWS l').length := by
          rcases h with ⟨l', hm, hlen⟩
          rcases List.mem_cons.mp hm with rfl | hm'
          · exact absurd hlen hl
          · exact ⟨l', hm', hlen⟩
        obtain ⟨e, hr⟩ := ih tmp' (idx + 1) h'
        refine ⟨e, ?_⟩
        simp only [parseRowsAux]
        rw [hb]
        dsimp only
        rw [hr]

theorem parseTable_error_of_overfull {contents : List String}
    (h : HasOverfullLine contents) : ∃ e, parseTable contents = .error e := by
  obtain ⟨hne, hover⟩ := h
  obtain ⟨e, hp⟩ :=
    parseRowsAux_error_of_overfull (splitWS (contents.head?.getD ""))
      contents.tail [] 1 hover
  refine ⟨e, ?_⟩
  unfold parseTable
  rw [if_neg (by simp [List.isEmpty_iff, hne]), hp]

theorem procFilesAux_error_of_bad (files : List (String × List String)) :
    ∀ (d : DataDict) (ws : List String),
      (∃ f ∈ files, HasOverfullLine f.2) →
      ∃ e, procFilesAux files d ws = .error e := by
  induction files with
  | nil =>
      intro d ws h
      simp at h
  | cons f rest ih =>
      obtain ⟨path, contents⟩ := f
      intro d ws h
      by_cases hf : HasOverfullLine contents
      · obtain ⟨e, hp⟩ := parseTable_error_of_overfull hf
        refine ⟨e, ?_⟩
        simp only [procFilesAux]
        rw [hp]
      · have h' : ∃ g ∈ rest, HasOverfullLine g.2 := by
          rcases h with ⟨g, hm, hg⟩
          rcases List.mem_cons.mp hm with rfl | hm'
          · exact absurd hg hf
          · exact ⟨g, hm', hg⟩
        simp only [procFilesAux]
        cases hp : parseTable contents with
        | error e => exact ⟨e, rfl⟩
        | ok o =>
            cases o with
            | none => exact ih d (ws ++ [warnMsg path]) h'
            | some t =>
                dsimp only
                cases hm : mergeTable d (getKey path) t with
                | error e => exact ⟨e, rfl⟩
                | ok d2 => exact ih d2 ws h'

/-- Claim C7: if any file processed by a task has a data line with more
whitespace tokens than its header has columns, the positional binding indexes
past the end of the column list, the resulting `IndexError` is unhandled, and
the task aborts with a nonzero status without writing its artifact. -/
theorem claim_C7_overfull_line_aborts (s : Settings) (c : Config) (fs : FS)
    (glob : List String)
    (h : ∃ f ∈ taskFiles fs glob, HasOverfullLine f.2) :
    (proc_gridstat s c fs glob).artifact = none ∧
    (proc_gridstat s c fs glob).exitCode ≠ 0 := by
  unfold proc_gridstat
  by_cases h1 : (mkdirp (mkdirp fs (logDir s)) (outDataRoot s c)).isdir
      (inDataRoot s c) = true
  · rw [if_neg (by simp [h1]), if_neg (by simp [isdir_mkdirp_self])]
    obtain ⟨e, hp⟩ := procFilesAux_error_of_bad (taskFiles fs glob) [] [] h
    rw [hp]
    exact ⟨rfl, by dsimp only; decide⟩
  · rw [if_pos (by simp [Bool.eq_false_iff.mpr h1])]
    exact ⟨rfl, by dsimp only; decide⟩

/-- A file system holding one candidate file whose single data line has three
tokens under a two-column header. -/
def fsBad : FS :=
  { dirs := ["/in", "/in/flow"],
    files := [("/d/grid_stat_GFS_3_2021_V_cnt.txt", ["a b", "1 2 3"])] }

/-- Witness for C7: the task over that file crashes and writes nothing. -/
theorem claim_C7_witness :
    (proc_gridstat stgDemo cfgFlow fsBad
        ["/d/grid_stat_GFS_3_2021_V_cnt.txt"]).artifact = none ∧
    (proc_gridstat stgDemo cfgFlow fsBad
        ["/d/grid_stat_GFS_3_2021_V_cnt.txt"]).exitCode ≠ 0 :=
  claim_C7_overfull_line_aborts stgDemo cfgFlow fsBad
    ["/d/grid_stat_GFS_3_2021_V_cnt.txt"] (by decide)

/-- Counterexample for C8: with a single available CPU the worker count is
`cpu_count - 1 = 0`, not `max(1, cpu_count - 1) = 1` — the source has no
`max(1, ...)` floor. -/
theorem claim_C8_counterexample : n_workers 1 ≠ max 1 ((1 : Int) - 1) := by decide

/-- Claim C8 (amended): the pool size is `cpu_count - 1` exactly; this agrees
with `max(1, cpu_count - 1)` only when at least two CPUs are available, and
with a single CPU the computed size is 0, so at least one worker is NOT
guaranteed. -/
theorem claim_C8_pool_size :
    n_workers 1 = 0 ∧
    ∀ p : Nat, 2 ≤ p → n_workers p = max 1 ((p : Int) - 1) := by
  constructor
  · decide
  · intro p hp
    unfold n_workers
    exact (max_eq_right (by omega : (1 : Int) ≤ (p : Int) - 1)).symm

/-- Witness for the amended C8: with eight CPUs the pool has seven workers,
matching the `max` formula. -/
theorem claim_C8_witness : n_workers 8 = max 1 ((8 : Int) - 1) :=
  claim_C8_pool_size.2 8 (by decide)

/-- Claim C10: if the start timestamp or stop timestamp is not a 10-character
string, or the cycle increment is not a 2-character string, the driver
prologue reports the corresponding explicit `ERROR:` message and terminates
with a nonzero status, and no task-configuration grid is ever produced. -/
theorem claim_C10_format_checks (STRT_DT STOP_DT CYC_INC : String)
    (analyses CTR_FLWS MEM_IDS GRDS : List String)
    (h : STRT_DT.length ≠ 10 ∨ STOP_DT.length ≠ 10 ∨ CYC_INC.length ≠ 2) :
    (driverSetup STRT_DT STOP_DT CYC_INC analyses CTR_FLWS MEM_IDS GRDS =
        .error ("ERROR: STRT_DT, " ++ STRT_DT ++ ", is not in YYYYMMDDHH format.") ∨
      driverSetup STRT_DT STOP_DT CYC_INC analyses CTR_FLWS MEM_IDS GRDS =
        .error ("ERROR: STOP_DT, " ++ STOP_DT ++ ", is not in YYYYMMDDHH format.") ∨
      driverSetup STRT_DT STOP_DT CYC_INC analyses CTR_FLWS MEM_IDS GRDS =
        .error ("ERROR: CYC_INC, " ++ CYC_INC ++ ", is not in HH format.")) ∧
    ∀ cfgs, driverSetup STRT_DT STOP_DT CYC_INC analyses CTR_FLWS MEM_IDS GRDS ≠
      .ok cfgs := by
  unfold driverSetup
  by_cases h1 : STRT_DT.length ≠ 10
  · rw [if_pos h1]
    exact ⟨Or.inl rfl, fun cfgs hc => by cases hc⟩
  · rw [if_neg h1]
    by_cases h2 : STOP_DT.length ≠ 10
    · rw [if_pos h2]
      exact ⟨Or.inr (Or.inl rfl), fun cfgs hc => by cases hc⟩
    · rw [if_neg h2]
      have h3 : CYC_INC.length ≠ 2 := by
        rcases h with h | h | h
        · exact absurd h h1
        · exact absurd h h2
        · exact h
      rw [if_pos h3]
      exact ⟨Or.inr (Or.inr rfl), fun cfgs hc => by cases hc⟩

/-- Witness for C10: a four-character start timestamp aborts the run before
any configuration is constructed. -/
theorem claim_C10_witness :
    (driverSetup "2021" "2021010200" "06" [] [] [] [] =
        .error ("ERROR: STRT_DT, " ++ "2021" ++ ", is not in YYYYMMDDHH format.") ∨
      driverSetup "2021" "2021010200" "06" [] [] [] [] =
        .error ("ERROR: STOP_DT, " ++ "2021010200" ++ ", is not in YYYYMMDDHH format.") ∨
      driverSetup "2021" "2021010200" "06" [] [] [] [] =
        .error ("ERROR: CYC_INC, " ++ "06" ++ ", is not in HH format.")) ∧
    ∀ cfgs, driverSetup "2021" "2021010200" "06" [] [] [] [] ≠ .ok cfgs :=
  claim_C10_format_checks "2021" "2021010200" "06" [] [] [] [] (by decide)

end MET
